import Mathlib

/-!
Shallow embedding of `types/types.go` from the longhorn-manager repository
(package `types`): the naming, labeling and disk-configuration-validation
layer.  Go strings are modelled as `List Char`, Go maps as association
lists with Go's replace-or-append insertion, Go `int64` as `Int` with every
arithmetic result wrapped into the `int64` range by `wrapInt64` (the
validators that only compare `int64` values need no wrapping), and fallible
Go functions as `Except`/`Option` returning functions.  External collaborators from the `util` package
(`GetDiskInfo`, `ValidateTags`, `GetStringChecksum`,
`CreateDiskPathReplicaSubdirectory`) and `json.Unmarshal` are parameters
of the embedded functions.
-/

/-- Go strings, modelled as their character lists. -/
abbrev GoString := List Char

/-- The character list of a Lean string literal (used to write Go string
literals in the embedding). -/
def str (s : String) : GoString := s.data

/-- Go `strings.TrimPrefix(s, pfx)`: drop `pfx` from the front of `s` when
present, otherwise return `s` unchanged. -/
def trimPfx (s pfx : GoString) : GoString :=
  if pfx.isPrefixOf s then s.drop pfx.length else s

/-- Go `strings.Contains(s, sub)`: `sub` occurs as a contiguous substring
of `s`. -/
def containsSub (s sub : GoString) : Bool :=
  if sub.isPrefixOf s then true
  else match s with
    | [] => false
    | _ :: t => containsSub t sub

/-- Whether a character counts as white space for Go `strings.TrimSpace`
(`unicode.IsSpace`), restricted to the Latin-1 space characters. -/
def isGoSpace (c : Char) : Bool :=
  c = ' ' ∨ c = '\t' ∨ c = '\n' ∨ c = '\x0b' ∨ c = '\x0c' ∨ c = '\r' ∨
    c = '\x85' ∨ c = '\xa0'

/-- Go `strings.TrimSpace`: drop white space from both ends. -/
def trimSpace (s : GoString) : GoString :=
  ((s.dropWhile isGoSpace).reverse.dropWhile isGoSpace).reverse

/-- Go map lookup (`v, ok := m[k]`) on the association-list model. -/
def goMapLookup {α : Type} (m : List (GoString × α)) (k : GoString) : Option α :=
  match m with
  | [] => none
  | (k', v) :: rest => if k' = k then some v else goMapLookup rest k

/-- Go map assignment (`m[k] = v`) on the association-list model: replace
the binding when the key is present, append it otherwise. -/
def goMapInsert {α : Type} (m : List (GoString × α)) (k : GoString) (v : α) :
    List (GoString × α) :=
  if m.any (fun p => decide (p.1 = k)) then
    m.map (fun p => if p.1 = k then (k, v) else p)
  else m ++ [(k, v)]

/- Constants of `types.go` used below (source names kept). -/

/-- `DefaultDiskPrefix = "default-disk-"`. -/
def DefaultDiskPrefix : GoString := str "default-disk-"

/-- `LonghornLabelKeyPrefix = "longhorn.io"`. -/
def LonghornLabelKeyPrefix : GoString := str "longhorn.io"

/-- `LonghornLabelShareManager = "share-manager"`. -/
def LonghornLabelShareManager : GoString := str "share-manager"

/-- `LonghornLabelVolume = "longhornvolume"`. -/
def LonghornLabelVolume : GoString := str "longhornvolume"

/-- `ImageChecksumNameLength = 8`. -/
def ImageChecksumNameLength : Nat := 8

/-- `engineImagePrefix = "ei-"`. -/
def engineImagePrefix : GoString := str "ei-"

/-- `instanceManagerImagePrefix = "imi-"`. -/
def instanceManagerImagePrefix : GoString := str "imi-"

/-- `shareManagerImagePrefix = "smi-"`. -/
def shareManagerImagePrefix : GoString := str "smi-"

/-- `KubernetesFailureDomainRegionLabelKey`. -/
def KubernetesFailureDomainRegionLabelKey : GoString :=
  str "failure-domain.beta.kubernetes.io/region"

/-- `KubernetesFailureDomainZoneLabelKey`. -/
def KubernetesFailureDomainZoneLabelKey : GoString :=
  str "failure-domain.beta.kubernetes.io/zone"

/-- `KubernetesTopologyRegionLabelKey`. -/
def KubernetesTopologyRegionLabelKey : GoString :=
  str "topology.kubernetes.io/region"

/-- `KubernetesTopologyZoneLabelKey`. -/
def KubernetesTopologyZoneLabelKey : GoString :=
  str "topology.kubernetes.io/zone"

/-- `GetImageCanonicalName`: replace every `:` and `/` in the image
reference by `-` (Go `strings.Replace` with single-character patterns). -/
def GetImageCanonicalName (image : GoString) : GoString :=
  (image.map fun c => if c = ':' then '-' else c).map
    fun c => if c = '/' then '-' else c

/-- `GetEngineImageChecksumName`: `"ei-"` followed by the first 8
characters of the checksum of the whitespace-trimmed image reference.
`util.GetStringChecksum` is the `checksum` parameter. -/
def GetEngineImageChecksumName (checksum : GoString → GoString)
    (image : GoString) : GoString :=
  engineImagePrefix ++ (checksum (trimSpace image)).take ImageChecksumNameLength

/-- `GetInstanceManagerImageChecksumName`: as above with prefix `"imi-"`. -/
def GetInstanceManagerImageChecksumName (checksum : GoString → GoString)
    (image : GoString) : GoString :=
  instanceManagerImagePrefix ++
    (checksum (trimSpace image)).take ImageChecksumNameLength

/-- `GetShareManagerImageChecksumName`: as above with prefix `"smi-"`. -/
def GetShareManagerImageChecksumName (checksum : GoString → GoString)
    (image : GoString) : GoString :=
  shareManagerImagePrefix ++
    (checksum (trimSpace image)).take ImageChecksumNameLength

/-- A hexadecimal digit as matched by the character class `[a-fA-F0-9]`. -/
def isHexDigit (c : Char) : Bool :=
  decide (('0' ≤ c ∧ c ≤ '9') ∨ ('a' ≤ c ∧ c ≤ 'f') ∨ ('A' ≤ c ∧ c ≤ 'F'))

/-- `ValidateEngineImageChecksumName`: the regular expression
`^ei-[a-fA-F0-9]{8}$` — the name is `"ei-"` followed by exactly 8
hexadecimal digits. -/
def ValidateEngineImageChecksumName (name : GoString) : Bool :=
  engineImagePrefix.isPrefixOf name &&
    decide ((name.drop engineImagePrefix.length).length = ImageChecksumNameLength) &&
    (name.drop engineImagePrefix.length).all isHexDigit

/-- `GetShareManagerPodNameFromShareManagerName`:
`"share-manager" + "-" + smName`. -/
def GetShareManagerPodNameFromShareManagerName (smName : GoString) : GoString :=
  LonghornLabelShareManager ++ str "-" ++ smName

/-- `GetShareManagerNameFromShareManagerPodName`: strip the
`"share-manager-"` front. -/
def GetShareManagerNameFromShareManagerPodName (podName : GoString) : GoString :=
  trimPfx podName (LonghornLabelShareManager ++ str "-")

/-- `GetDaemonSetNameFromEngineImageName`: `"engine-image-" + name`. -/
def GetDaemonSetNameFromEngineImageName (engineImageName : GoString) : GoString :=
  str "engine-image-" ++ engineImageName

/-- `GetEngineImageNameFromDaemonSetName`: strip the `"engine-image-"`
front. -/
def GetEngineImageNameFromDaemonSetName (dsName : GoString) : GoString :=
  trimPfx dsName (str "engine-image-")

/-- `GetRegionAndZone`: read the topology label keys when
`isUsingTopologyLabels` is set, the legacy failure-domain keys otherwise;
a missing key leaves the empty string. -/
def GetRegionAndZone (labels : List (GoString × GoString))
    (isUsingTopologyLabels : Bool) : GoString × GoString :=
  if isUsingTopologyLabels then
    ((goMapLookup labels KubernetesTopologyRegionLabelKey).getD [],
     (goMapLookup labels KubernetesTopologyZoneLabelKey).getD [])
  else
    ((goMapLookup labels KubernetesFailureDomainRegionLabelKey).getD [],
     (goMapLookup labels KubernetesFailureDomainZoneLabelKey).getD [])

/-- The `NotFoundError` struct. -/
structure NotFoundError where
  name : GoString

/-- `(*NotFoundError).Error()`: `fmt.Sprintf("cannot find %v", e.Name)`. -/
def NotFoundError.errorText (e : NotFoundError) : GoString :=
  str "cannot find " ++ e.name

/-- `ErrorIsNotFound`: the error text contains `"cannot find"`. -/
def ErrorIsNotFound (errText : GoString) : Bool :=
  containsSub errText (str "cannot find")

/-- `ErrorAlreadyExists`: the error text contains `"already exists"`. -/
def ErrorAlreadyExists (errText : GoString) : Bool :=
  containsSub errText (str "already exists")

/-- `ValidateReplicaCount`: error unless `1 ≤ count ≤ 20` (the `error`
result is modelled as `Option` of the message, `none` meaning Go `nil`). -/
def ValidateReplicaCount (count : Int) : Option GoString :=
  if count < 1 ∨ count > 20 then
    some (str "replica count value must between 1 to 20")
  else none

/-- The largest Go `int64` value, for `strconv.Atoi` range errors. -/
def maxInt64 : Int := 9223372036854775807

/-- The smallest Go `int64` value. -/
def minInt64 : Int := -9223372036854775808

/-- Go `int64` (and 64-bit `int`) arithmetic wraps: reduce an unbounded
result into `[-2^63, 2^63)` modulo `2^64`. -/
def wrapInt64 (n : Int) : Int :=
  (n + 9223372036854775808) % 18446744073709551616 - 9223372036854775808

/-- The digits of `s` read as a base-10 natural number; `none` when `s` is
empty or has a non-digit. -/
def parseDigits (s : GoString) : Option Nat :=
  if s = [] then none
  else if s.all Char.isDigit then
    some (s.foldl (fun acc c => acc * 10 + (c.toNat - 48)) 0)
  else none

/-- Go `strconv.Atoi` on a 64-bit platform: an optional sign, then one or
more digits making up the whole string, with an error outside the `int64`
range. -/
def atoi (s : GoString) : Option Int :=
  match s with
  | '+' :: rest =>
    (parseDigits rest).bind fun n =>
      if (n : Int) > maxInt64 then none else some (n : Int)
  | '-' :: rest =>
    (parseDigits rest).bind fun n =>
      if (n : Int) > maxInt64 + 1 then none else some (-(n : Int))
  | _ =>
    (parseDigits s).bind fun n =>
      if (n : Int) > maxInt64 then none else some (n : Int)

/-- `ValidateCPUReservationValues`: both strings must parse as integers and
their sum — computed in Go `int` arithmetic, which wraps at 64 bits — must
lie in `[0, 40]`; `none` is Go's `nil` error. -/
def ValidateCPUReservationValues (engineManagerCPUStr replicaManagerCPUStr :
    GoString) : Option GoString :=
  match atoi engineManagerCPUStr with
  | none => some (str "guaranteed/requested engine manager CPU value is not int")
  | some engineManagerCPU =>
    match atoi replicaManagerCPUStr with
    | none => some (str "guaranteed/requested replica manager CPU value is not int")
    | some replicaManagerCPU =>
      if wrapInt64 (engineManagerCPU + replicaManagerCPU) < 0 ∨
          wrapInt64 (engineManagerCPU + replicaManagerCPU) > 40 then
        some (str "the sum should not be smaller than 0% or greater than 40%")
      else none

/- Label derivation (`GetLonghornLabelKey` and friends). -/

/-- `ControlPlaneName = "longhorn-manager"`. -/
def ControlPlaneName : GoString := str "longhorn-manager"

/-- `LonghornLabelInstanceManager = "instance-manager"`. -/
def LonghornLabelInstanceManager : GoString := str "instance-manager"

/-- `LonghornLabelNode = "node"`. -/
def LonghornLabelNode : GoString := str "node"

/-- `LonghornLabelDiskUUID = "disk-uuid"`. -/
def LonghornLabelDiskUUID : GoString := str "disk-uuid"

/-- `LonghornLabelInstanceManagerType = "instance-manager-type"`. -/
def LonghornLabelInstanceManagerType : GoString := str "instance-manager-type"

/-- `LonghornLabelInstanceManagerImage = "instance-manager-image"`. -/
def LonghornLabelInstanceManagerImage : GoString := str "instance-manager-image"

/-- `LonghornLabelManagedBy = "managed-by"`. -/
def LonghornLabelManagedBy : GoString := str "managed-by"

/-- `LonghornLabelCronJobTask = "job-task"`. -/
def LonghornLabelCronJobTask : GoString := str "job-task"

/-- `LonghornLabelBackingImageDataSource = "backing-image-data-source"`. -/
def LonghornLabelBackingImageDataSource : GoString := str "backing-image-data-source"

/-- `GetLonghornLabelKey`: `fmt.Sprintf("%s/%s", LonghornLabelKeyPrefix, name)`. -/
def GetLonghornLabelKey (name : GoString) : GoString :=
  LonghornLabelKeyPrefix ++ str "/" ++ name

/-- `GetBaseLabelsForSystemManagedComponent`: the `managed-by` base pair. -/
def GetBaseLabelsForSystemManagedComponent : List (GoString × GoString) :=
  [(GetLonghornLabelKey LonghornLabelManagedBy, ControlPlaneName)]

/-- `GetLonghornLabelComponentKey`. -/
def GetLonghornLabelComponentKey : GoString := GetLonghornLabelKey (str "component")

/-- `GetInstanceManagerLabels`: base labels, the component discriminator,
the instance-manager type (always), then the node and image keys guarded by
non-emptiness.  `util.GetStringChecksum` is the `checksum` parameter; the Go
`InstanceManagerType` string type is a `GoString`. -/
def GetInstanceManagerLabels (checksum : GoString → GoString)
    (node instanceManagerImage managerType : GoString) :
    List (GoString × GoString) :=
  let labels := GetBaseLabelsForSystemManagedComponent
  let labels := goMapInsert labels GetLonghornLabelComponentKey
    LonghornLabelInstanceManager
  let labels := goMapInsert labels
    (GetLonghornLabelKey LonghornLabelInstanceManagerType) managerType
  let labels := if node ≠ [] then
      goMapInsert labels (GetLonghornLabelKey LonghornLabelNode) node
    else labels
  if instanceManagerImage ≠ [] then
    goMapInsert labels (GetLonghornLabelKey LonghornLabelInstanceManagerImage)
      (GetInstanceManagerImageChecksumName checksum
        (GetImageCanonicalName instanceManagerImage))
  else labels

/-- Modelled from the spec: the `RecurringJob` struct is declared outside the
given source file; only its `Task` field (a string) is read here. -/
structure RecurringJob where
  task : GoString

/-- `GetCronJobLabels`: base labels plus the volume and job-task keys, both
set unconditionally. -/
def GetCronJobLabels (volumeName : GoString) (job : RecurringJob) :
    List (GoString × GoString) :=
  let labels := GetBaseLabelsForSystemManagedComponent
  let labels := goMapInsert labels LonghornLabelVolume volumeName
  goMapInsert labels (GetLonghornLabelKey LonghornLabelCronJobTask) job.task

/-- `GetCronJobPodLabels`: a fresh map with the volume and job-task keys,
both set unconditionally. -/
def GetCronJobPodLabels (volumeName : GoString) (job : RecurringJob) :
    List (GoString × GoString) :=
  let labels : List (GoString × GoString) := []
  let labels := goMapInsert labels LonghornLabelVolume volumeName
  goMapInsert labels (GetLonghornLabelKey LonghornLabelCronJobTask) job.task

/-- `GetBackingImageDataSourceLabels`: base labels, the component
discriminator, then the name, disk-uuid and node keys guarded by
non-emptiness. -/
def GetBackingImageDataSourceLabels (name nodeID diskUUID : GoString) :
    List (GoString × GoString) :=
  let labels := GetBaseLabelsForSystemManagedComponent
  let labels := goMapInsert labels GetLonghornLabelComponentKey
    LonghornLabelBackingImageDataSource
  let labels := if name ≠ [] then
      goMapInsert labels (GetLonghornLabelKey LonghornLabelBackingImageDataSource)
        name
    else labels
  let labels := if diskUUID ≠ [] then
      goMapInsert labels (GetLonghornLabelKey LonghornLabelDiskUUID) diskUUID
    else labels
  if nodeID ≠ [] then
    goMapInsert labels (GetLonghornLabelKey LonghornLabelNode) nodeID
  else labels

/- The disk-configuration validator. -/

/-- Modelled from the spec: the `DiskSpec` struct is declared outside the
given source file; spec §3 and the uses in `types.go` give its fields
(`Path`, `AllowScheduling`, `EvictionRequested`, `StorageReserved`,
`Tags`). -/
structure DiskSpec where
  path : GoString
  allowScheduling : Bool
  evictionRequested : Bool
  storageReserved : Int
  tags : List GoString
  deriving DecidableEq

/-- The `DiskSpecWithName` struct: a `DiskSpec` with the `name` field. -/
structure DiskSpecWithName extends DiskSpec where
  name : GoString
  deriving DecidableEq

/-- Modelled from the spec: the `util.DiskInfo` result of the
filesystem-metadata collaborator, with the fields spec §3 lists. -/
structure DiskInfo where
  fsid : GoString
  path : GoString
  storageMaximum : Int
  storageAvailable : Int
  deriving DecidableEq

/-- The error cases of `CreateDisksFromAnnotation` (collaborator errors are
carried as their message). -/
inductive DiskError where
  | parseFailed (msg : GoString)
  | invalidDisk (disk : DiskSpecWithName)
  | getDiskInfoFailed (msg : GoString)
  | duplicateDiskPath (path : GoString)
  | duplicateFilesystem (path otherPath fsid : GoString)
  | invalidStorageReserved (path : GoString)
  | validateTagsFailed (msg : GoString)
  | duplicateDiskName (name : GoString)
  deriving DecidableEq

/-- The loop of `CreateDisksFromAnnotation` over the decoded entries, with
the `validDisks` and `existFsid` accumulator maps made explicit.  For each
entry: reject an empty path, query `GetDiskInfo`, reject a path already seen
among `validDisks`, default the name to `DefaultDiskPrefix + Fsid`, reject a
repeated fsid, record the fsid, check the reservation bounds, normalize the
tags, reject a repeated name, and store the entry's `DiskSpec` under its
name. -/
def processDisks (getDiskInfo : GoString → Except GoString DiskInfo)
    (validateTags : List GoString → Except GoString (List GoString)) :
    List DiskSpecWithName → List (GoString × DiskSpec) →
    List (GoString × GoString) → Except DiskError (List (GoString × DiskSpec))
  | [], validDisks, _ => .ok validDisks
  | disk :: rest, validDisks, existFsid =>
    if disk.path = [] then .error (.invalidDisk disk)
    else
      match getDiskInfo disk.path with
      | .error e => .error (.getDiskInfoFailed e)
      | .ok diskInfo =>
        if validDisks.any (fun p => decide (p.2.path = disk.path)) then
          .error (.duplicateDiskPath disk.path)
        else
          let disk1 := if disk.name = [] then
              { disk with name := DefaultDiskPrefix ++ diskInfo.fsid }
            else disk
          match goMapLookup existFsid diskInfo.fsid with
          | some otherPath =>
            .error (.duplicateFilesystem disk1.path otherPath diskInfo.fsid)
          | none =>
            let existFsid' := goMapInsert existFsid diskInfo.fsid disk1.path
            if disk1.storageReserved < 0 ∨
                disk1.storageReserved > diskInfo.storageMaximum then
              .error (.invalidStorageReserved disk1.path)
            else
              match validateTags disk1.tags with
              | .error e => .error (.validateTagsFailed e)
              | .ok tags =>
                let disk2 := { disk1 with tags := tags }
                if (goMapLookup validDisks disk2.name).isSome then
                  .error (.duplicateDiskName disk2.name)
                else
                  processDisks getDiskInfo validateTags rest
                    (goMapInsert validDisks disk2.name disk2.toDiskSpec) existFsid'

/-- `CreateDisksFromAnnotation`: decode the annotation through
`UnmarshalToDisks` (the `unmarshalToDisks` parameter stands for
`json.Unmarshal` into `[]DiskSpecWithName`), then run the validation loop
with empty accumulators. -/
def CreateDisksFromAnnotationGo
    (unmarshalToDisks : GoString → Except GoString (List DiskSpecWithName))
    (getDiskInfo : GoString → Except GoString DiskInfo)
    (validateTags : List GoString → Except GoString (List GoString))
    (ann : GoString) : Except DiskError (List (GoString × DiskSpec)) :=
  match unmarshalToDisks ann with
  | .error e => .error (.parseFailed e)
  | .ok disks => processDisks getDiskInfo validateTags disks [] []

/-- The same loop instrumented with the trace of `GetDiskInfo` invocations:
the oracle is indexed by the global call counter (the real collaborator
reads the filesystem, so two calls may disagree), and the returned list
records, in order, each path `GetDiskInfo` was invoked on. -/
def processDisksTraced (getDiskInfo : Nat → GoString → Except GoString DiskInfo)
    (validateTags : List GoString → Except GoString (List GoString)) :
    List DiskSpecWithName → List (GoString × DiskSpec) →
    List (GoString × GoString) → List GoString → Nat →
    Except DiskError (List (GoString × DiskSpec)) × List GoString
  | [], validDisks, _, tr, _ => (.ok validDisks, tr)
  | disk :: rest, validDisks, existFsid, tr, n =>
    if disk.path = [] then (.error (.invalidDisk disk), tr)
    else
      match getDiskInfo n disk.path with
      | .error e => (.error (.getDiskInfoFailed e), tr ++ [disk.path])
      | .ok diskInfo =>
        if validDisks.any (fun p => decide (p.2.path = disk.path)) then
          (.error (.duplicateDiskPath disk.path), tr ++ [disk.path])
        else
          let disk1 := if disk.name = [] then
              { disk with name := DefaultDiskPrefix ++ diskInfo.fsid }
            else disk
          match goMapLookup existFsid diskInfo.fsid with
          | some otherPath =>
            (.error (.duplicateFilesystem disk1.path otherPath diskInfo.fsid),
              tr ++ [disk.path])
          | none =>
            let existFsid' := goMapInsert existFsid diskInfo.fsid disk1.path
            if disk1.storageReserved < 0 ∨
                disk1.storageReserved > diskInfo.storageMaximum then
              (.error (.invalidStorageReserved disk1.path), tr ++ [disk.path])
            else
              match validateTags disk1.tags with
              | .error e => (.error (.validateTagsFailed e), tr ++ [disk.path])
              | .ok tags =>
                let disk2 := { disk1 with tags := tags }
                if (goMapLookup validDisks disk2.name).isSome then
                  (.error (.duplicateDiskName disk2.name), tr ++ [disk.path])
                else
                  processDisksTraced getDiskInfo validateTags rest
                    (goMapInsert validDisks disk2.name disk2.toDiskSpec)
                    existFsid' (tr ++ [disk.path]) (n + 1)

/-- `CreateDisksFromAnnotation` with the `GetDiskInfo` call trace. -/
def CreateDisksFromAnnotationTraced
    (unmarshalToDisks : GoString → Except GoString (List DiskSpecWithName))
    (getDiskInfo : Nat → GoString → Except GoString DiskInfo)
    (validateTags : List GoString → Except GoString (List GoString))
    (ann : GoString) :
    Except DiskError (List (GoString × DiskSpec)) × List GoString :=
  match unmarshalToDisks ann with
  | .error e => (.error (.parseFailed e), [])
  | .ok disks => processDisksTraced getDiskInfo validateTags disks [] [] [] 0

/-- `CreateDefaultDisk`: ensure the replica subdirectory exists (the
`createDiskPathReplicaSubdirectory` parameter, `none` meaning success),
query `GetDiskInfo`, and build the one default entry.  The product
`StorageMaximum * 30` is Go `int64` arithmetic and wraps, and Go `int64`
division truncates toward zero, hence `wrapInt64` and `Int.tdiv`. -/
def CreateDefaultDisk
    (createDiskPathReplicaSubdirectory : GoString → Option GoString)
    (getDiskInfo : GoString → Except GoString DiskInfo) (dataPath : GoString) :
    Except GoString (List (GoString × DiskSpec)) :=
  match createDiskPathReplicaSubdirectory dataPath with
  | some e => .error e
  | none =>
    match getDiskInfo dataPath with
    | .error e => .error e
    | .ok diskInfo =>
      .ok [(DefaultDiskPrefix ++ diskInfo.fsid,
        { path := diskInfo.path, allowScheduling := true,
          evictionRequested := false,
          storageReserved := Int.tdiv (wrapInt64 (diskInfo.storageMaximum * 30)) 100,
          tags := [] })]


/- Helper notions used to state the disk-annotation claims. -/

/-- Whether an `Except` is a success, as a boolean. -/
def isOkB {ε α : Type} : Except ε α → Bool
  | .ok _ => true
  | .error _ => false

/-- The fsid the filesystem-metadata collaborator reports for a path
(empty when the lookup fails). -/
def fsidOfPath (g : GoString → Except GoString DiskInfo) (p : GoString) :
    GoString :=
  match g p with
  | .ok info => info.fsid
  | .error _ => []

/-- The `StorageMaximum` the collaborator reports for a path (0 when the
lookup fails). -/
def storageMaxOfPath (g : GoString → Except GoString DiskInfo) (p : GoString) :
    Int :=
  match g p with
  | .ok info => info.storageMaximum
  | .error _ => 0

/-- The output name of an entry: the given name, or `DefaultDiskPrefix`
followed by the entry's fsid when the given name is empty. -/
def diskOutName (g : GoString → Except GoString DiskInfo)
    (d : DiskSpecWithName) : GoString :=
  if d.name = [] then DefaultDiskPrefix ++ fsidOfPath g d.path else d.name

/-- The stored spec of an entry: its `DiskSpec` with the tags normalized by
the tag collaborator. -/
def diskOutSpec (vt : List GoString → Except GoString (List GoString))
    (d : DiskSpecWithName) : DiskSpec :=
  { d.toDiskSpec with
    tags := match vt d.tags with | .ok ts => ts | .error _ => d.tags }

/-- An entry passes every per-entry check: non-empty path, successful
metadata lookup, accepted tags, and a reservation within
`[0, StorageMaximum]`. -/
def cleanEntry (g : GoString → Except GoString DiskInfo)
    (vt : List GoString → Except GoString (List GoString))
    (d : DiskSpecWithName) : Prop :=
  d.path ≠ [] ∧ isOkB (g d.path) = true ∧ isOkB (vt d.tags) = true ∧
    0 ≤ d.storageReserved ∧ d.storageReserved ≤ storageMaxOfPath g d.path

/-- The emptiness of a `cleanEntry` check is decidable (used to evaluate
concrete runs). -/
instance (g : GoString → Except GoString DiskInfo)
    (vt : List GoString → Except GoString (List GoString))
    (d : DiskSpecWithName) : Decidable (cleanEntry g vt d) := by
  unfold cleanEntry
  infer_instance

deriving instance DecidableEq for Except

/- Shared lemmas about the Go map model. -/

theorem goMapLookup_eq_none {α : Type} (m : List (GoString × α)) (k : GoString)
    (h : ∀ p ∈ m, p.1 ≠ k) : goMapLookup m k = none := by
  induction m with
  | nil => rfl
  | cons p rest ih =>
    simp only [goMapLookup]
    rw [if_neg (h p (by simp))]
    exact ih fun q hq => h q (by simp [hq])

theorem forall_of_goMapLookup_eq_none {α : Type} (m : List (GoString × α))
    (k : GoString) (h : goMapLookup m k = none) : ∀ p ∈ m, p.1 ≠ k := by
  induction m with
  | nil => simp
  | cons p rest ih =>
    simp only [goMapLookup] at h
    by_cases hp : p.1 = k
    · rw [if_pos hp] at h; exact absurd h (by simp)
    · rw [if_neg hp] at h
      intro q hq
      rcases List.mem_cons.mp hq with rfl | hq'
      · exact hp
      · exact ih h q hq'

theorem goMapInsert_of_not_mem {α : Type} (m : List (GoString × α))
    (k : GoString) (v : α) (h : ∀ p ∈ m, p.1 ≠ k) :
    goMapInsert m k v = m ++ [(k, v)] := by
  unfold goMapInsert
  rw [if_neg]
  simp only [List.any_eq_true, decide_eq_true_eq, not_exists]
  intro p
  by_cases hp : p ∈ m
  · simp [h p hp, hp]
  · simp [hp]

theorem goMapLookup_map_replace {α : Type} (m : List (GoString × α))
    (k k' : GoString) (v : α) (h : k ≠ k') :
    goMapLookup (m.map (fun p => if p.1 = k then (k, v) else p)) k' =
      goMapLookup m k' := by
  induction m with
  | nil => rfl
  | cons p rest ih =>
    simp only [List.map_cons]
    by_cases hp : p.1 = k
    · rw [if_pos hp]
      simp only [goMapLookup]
      rw [if_neg h, if_neg (by rw [hp]; exact h)]
      exact ih
    · rw [if_neg hp]
      simp only [goMapLookup]
      by_cases hp' : p.1 = k'
      · rw [if_pos hp', if_pos hp']
      · rw [if_neg hp', if_neg hp']
        exact ih

theorem goMapLookup_append_single_ne {α : Type} (m : List (GoString × α))
    (k k' : GoString) (v : α) (h : k ≠ k') :
    goMapLookup (m ++ [(k, v)]) k' = goMapLookup m k' := by
  induction m with
  | nil => simp [goMapLookup, h]
  | cons p rest ih =>
    simp only [List.cons_append, goMapLookup]
    by_cases hp : p.1 = k'
    · rw [if_pos hp, if_pos hp]
    · rw [if_neg hp, if_neg hp]
      exact ih

theorem goMapLookup_insert_ne {α : Type} (m : List (GoString × α))
    (k k' : GoString) (v : α) (h : k ≠ k') :
    goMapLookup (goMapInsert m k v) k' = goMapLookup m k' := by
  unfold goMapInsert
  split
  · exact goMapLookup_map_replace m k k' v h
  · exact goMapLookup_append_single_ne m k k' v h

theorem goMapLookup_map_replace_self {α : Type} (m : List (GoString × α))
    (k : GoString) (v : α) (h : m.any (fun p => decide (p.1 = k)) = true) :
    goMapLookup (m.map (fun p => if p.1 = k then (k, v) else p)) k = some v := by
  induction m with
  | nil => simp at h
  | cons p rest ih =>
    simp only [List.map_cons]
    by_cases hp : p.1 = k
    · rw [if_pos hp]
      simp [goMapLookup]
    · rw [if_neg hp]
      simp only [goMapLookup]
      rw [if_neg hp]
      apply ih
      simp only [List.any_cons, Bool.or_eq_true, decide_eq_true_eq] at h
      rcases h with h | h
      · exact absurd h hp
      · exact h

theorem goMapLookup_append_single_self {α : Type} (m : List (GoString × α))
    (k : GoString) (v : α) (h : ∀ p ∈ m, p.1 ≠ k) :
    goMapLookup (m ++ [(k, v)]) k = some v := by
  induction m with
  | nil => simp [goMapLookup]
  | cons p rest ih =>
    simp only [List.cons_append, goMapLookup]
    rw [if_neg (h p (by simp))]
    exact ih fun q hq => h q (by simp [hq])

theorem goMapLookup_insert_self {α : Type} (m : List (GoString × α))
    (k : GoString) (v : α) : goMapLookup (goMapInsert m k v) k = some v := by
  unfold goMapInsert
  split <;> rename_i h
  · exact goMapLookup_map_replace_self m k v h
  · apply goMapLookup_append_single_self
    intro p hp hk
    simp only [List.any_eq_true, decide_eq_true_eq] at h
    exact h ⟨p, hp, hk⟩

/-- `strings.TrimPrefix` undoes prepending the same front. -/
theorem trimPfx_append (pfx s : GoString) : trimPfx (pfx ++ s) pfx = s := by
  unfold trimPfx
  rw [if_pos (List.isPrefixOf_iff_prefix.mpr (List.prefix_append pfx s))]
  exact List.drop_left pfx s

/-- C4: the pod-name/logical-name transform pairs are exact inverses in the
pod-name-then-back direction: for every logical name `L`, stripping the
share-manager pod front after prepending it gives back `L`, and likewise
for the engine-image daemon-set names. -/
theorem C4_name_transform_round_trip (L : GoString) :
    GetShareManagerNameFromShareManagerPodName
        (GetShareManagerPodNameFromShareManagerName L) = L ∧
    GetEngineImageNameFromDaemonSetName
        (GetDaemonSetNameFromEngineImageName L) = L := by
  constructor
  · show trimPfx ((LonghornLabelShareManager ++ str "-") ++ L)
      (LonghornLabelShareManager ++ str "-") = L
    exact trimPfx_append (LonghornLabelShareManager ++ str "-") L
  · exact trimPfx_append (str "engine-image-") L

/-- C10: every `NotFoundError` text is classified as not-found by
`ErrorIsNotFound`, because the rendered message always starts with the
literal `"cannot find"`; both classifiers are substring inspections of the
error text by construction. -/
theorem C10_not_found_classifier :
    (∀ n : GoString, ErrorIsNotFound (NotFoundError.errorText ⟨n⟩) = true) ∧
    (∀ e : GoString, ErrorIsNotFound e = containsSub e (str "cannot find")) ∧
    (∀ e : GoString, ErrorAlreadyExists e = containsSub e (str "already exists")) := by
  refine ⟨fun n => ?_, fun e => rfl, fun e => rfl⟩
  have hpfx : (str "cannot find").isPrefixOf (str "cannot find " ++ n) = true := by
    apply List.isPrefixOf_iff_prefix.mpr
    exact ⟨' ' :: n, rfl⟩
  show containsSub (str "cannot find " ++ n) (str "cannot find") = true
  unfold containsSub
  rw [if_pos hpfx]

/-- C7 counterexample: the CPU-reservation sum is Go `int` arithmetic and
wraps — at `e = r = "-9223372036854775808"` both strings parse (to the
smallest `int64`), the true sum `-2^64` is far outside `[0, 40]`, yet the
wrapped sum is `0` and the validator returns `nil`, refuting "nil exactly
when the sum of the two parsed values lies within [0, 40]". -/
theorem C7_counterexample :
    ValidateCPUReservationValues (str "-9223372036854775808")
        (str "-9223372036854775808") = none ∧
    atoi (str "-9223372036854775808") = some (-9223372036854775808) ∧
    (-9223372036854775808 : Int) + (-9223372036854775808 : Int) < 0 := by
  decide

/-- C7 amended: `ValidateReplicaCount` accepts exactly the counts in
`[1, 20]`, and `ValidateCPUReservationValues` accepts exactly the string
pairs that both parse as integers whose *wrapped* (Go 64-bit `int`) sum
lies in `[0, 40]`; the wrapped sum agrees with the integer sum whenever the
addition stays within `int64`.  In particular `0` and `21` are rejected,
`1` and `20` accepted, `("20","20")` accepted and `("30","20")` rejected.
Both are pure functions of their arguments in this embedding. -/
theorem C7_scalar_validators :
    (∀ count : Int, ValidateReplicaCount count = none ↔ 1 ≤ count ∧ count ≤ 20) ∧
    (∀ e r : GoString, ValidateCPUReservationValues e r = none ↔
      ∃ a b : Int, atoi e = some a ∧ atoi r = some b ∧
        0 ≤ wrapInt64 (a + b) ∧ wrapInt64 (a + b) ≤ 40) ∧
    (∀ a b : Int, minInt64 ≤ a + b → a + b ≤ maxInt64 →
      wrapInt64 (a + b) = a + b) ∧
    ValidateReplicaCount 0 ≠ none ∧ ValidateReplicaCount 21 ≠ none ∧
    ValidateReplicaCount 1 = none ∧ ValidateReplicaCount 20 = none ∧
    ValidateCPUReservationValues (str "20") (str "20") = none ∧
    ValidateCPUReservationValues (str "30") (str "20") ≠ none := by
  refine ⟨fun count => ?_, fun e r => ?_, fun a b h1 h2 => ?_, by decide,
    by decide, by decide, by decide, by decide, by decide⟩
  · unfold ValidateReplicaCount
    by_cases h : count < 1 ∨ count > 20
    · rw [if_pos h]
      constructor
      · intro hx; exact absurd hx (by simp)
      · intro hx; omega
    · rw [if_neg h]
      push_neg at h
      constructor
      · intro _; omega
      · intro _; rfl
  · unfold ValidateCPUReservationValues
    cases he : atoi e with
    | none =>
      show some (str "guaranteed/requested engine manager CPU value is not int") =
        none ↔ _
      constructor
      · intro hx; cases hx
      · rintro ⟨a, b, ha, -⟩; cases ha
    | some a =>
      cases hr : atoi r with
      | none =>
        show some (str "guaranteed/requested replica manager CPU value is not int") =
          none ↔ _
        constructor
        · intro hx; cases hx
        · rintro ⟨a', b', -, hb, -⟩; cases hb
      | some b =>
        show (if wrapInt64 (a + b) < 0 ∨ wrapInt64 (a + b) > 40 then
            some (str "the sum should not be smaller than 0% or greater than 40%")
          else none) = none ↔ _
        by_cases hs : wrapInt64 (a + b) < 0 ∨ wrapInt64 (a + b) > 40
        · rw [if_pos hs]
          constructor
          · intro hx; cases hx
          · rintro ⟨a', b', ha', hb', h1, h2⟩
            injection ha' with ha'
            injection hb' with hb'
            subst ha'
            subst hb'
            omega
        · rw [if_neg hs]
          push_neg at hs
          exact iff_of_true rfl ⟨a, b, rfl, rfl, by omega, by omega⟩
  · unfold wrapInt64 minInt64 at *
    unfold maxInt64 at *
    omega

/-- C7 witness: the wrapped sum agrees with the integer sum at a concrete
in-range pair, via the amended theorem. -/
theorem C7_scalar_validators_witness : wrapInt64 (20 + 20) = 20 + 20 :=
  C7_scalar_validators.2.2.1 20 20 (by decide) (by decide)

/-- C9: `GetRegionAndZone` reads exactly one label-key pair, selected by
the capability flag: with the flag set the result depends only on the
topology keys, with the flag unset only on the legacy failure-domain keys,
and an absent key yields the empty string for that component. -/
theorem C9_region_zone_flag_selection (l1 l2 : List (GoString × GoString)) :
    (goMapLookup l1 KubernetesTopologyRegionLabelKey =
        goMapLookup l2 KubernetesTopologyRegionLabelKey →
      goMapLookup l1 KubernetesTopologyZoneLabelKey =
        goMapLookup l2 KubernetesTopologyZoneLabelKey →
      GetRegionAndZone l1 true = GetRegionAndZone l2 true) ∧
    (goMapLookup l1 KubernetesFailureDomainRegionLabelKey =
        goMapLookup l2 KubernetesFailureDomainRegionLabelKey →
      goMapLookup l1 KubernetesFailureDomainZoneLabelKey =
        goMapLookup l2 KubernetesFailureDomainZoneLabelKey →
      GetRegionAndZone l1 false = GetRegionAndZone l2 false) ∧
    (goMapLookup l1 KubernetesTopologyRegionLabelKey = none →
      (GetRegionAndZone l1 true).1 = []) ∧
    (goMapLookup l1 KubernetesTopologyZoneLabelKey = none →
      (GetRegionAndZone l1 true).2 = []) ∧
    (goMapLookup l1 KubernetesFailureDomainRegionLabelKey = none →
      (GetRegionAndZone l1 false).1 = []) ∧
    (goMapLookup l1 KubernetesFailureDomainZoneLabelKey = none →
      (GetRegionAndZone l1 false).2 = []) := by
  unfold GetRegionAndZone
  refine ⟨fun h1 h2 => ?_, fun h1 h2 => ?_, fun h => ?_, fun h => ?_,
    fun h => ?_, fun h => ?_⟩ <;> simp [*]

/-- C9 witness: two concrete label maps that agree on the topology keys but
differ on a legacy failure-domain key give the same topology-flag result. -/
theorem C9_region_zone_flag_selection_witness :
    GetRegionAndZone [(KubernetesTopologyRegionLabelKey, str "r1")] true =
      GetRegionAndZone [(KubernetesTopologyRegionLabelKey, str "r1"),
        (KubernetesFailureDomainRegionLabelKey, str "other")] true :=
  (C9_region_zone_flag_selection
      [(KubernetesTopologyRegionLabelKey, str "r1")]
      [(KubernetesTopologyRegionLabelKey, str "r1"),
        (KubernetesFailureDomainRegionLabelKey, str "other")]).1
    (by decide) (by decide)

/-- C8 counterexample: the product `StorageMaximum * 30` is Go `int64`
arithmetic and wraps — at the representable `StorageMaximum = 2^62` the
stored reservation is the negative `-92233720368547758`, not 30% of
`StorageMaximum` under the unwrapped formula. -/
theorem C8_counterexample :
    CreateDefaultDisk (fun _ => none)
        (fun _ => .ok ⟨str "f1", str "/var/lib/longhorn",
          4611686018427387904, 0⟩) (str "/var/lib/longhorn") =
      .ok [(DefaultDiskPrefix ++ str "f1",
        { path := str "/var/lib/longhorn", allowScheduling := true,
          evictionRequested := false,
          storageReserved := -92233720368547758, tags := [] })] ∧
    (-92233720368547758 : Int) ≠
      Int.tdiv ((4611686018427387904 : Int) * 30) 100 ∧
    (-92233720368547758 : Int) < 0 := by
  decide

/-- C8 amended: when the replica-subdirectory creation and the `DiskInfo`
query both succeed, `CreateDefaultDisk` returns exactly one entry keyed
`DefaultDiskPrefix ++ Fsid`, with the reported path, scheduling allowed, no
eviction requested, and the reservation `StorageMaximum * 30 / 100`
computed in Go `int64` arithmetic (the product wraps, the division
truncates toward zero); whenever `StorageMaximum` is non-negative and the
product stays within `int64`, this is 30% of `StorageMaximum`, truncated. -/
theorem C8_create_default_disk
    (createSub : GoString → Option GoString)
    (g : GoString → Except GoString DiskInfo) (dataPath : GoString)
    (info : DiskInfo) (hsub : createSub dataPath = none)
    (hinfo : g dataPath = .ok info) :
    CreateDefaultDisk createSub g dataPath =
      .ok [(DefaultDiskPrefix ++ info.fsid,
        { path := info.path, allowScheduling := true, evictionRequested := false,
          storageReserved := Int.tdiv (wrapInt64 (info.storageMaximum * 30)) 100,
          tags := [] })] ∧
    (0 ≤ info.storageMaximum → info.storageMaximum * 30 ≤ maxInt64 →
      Int.tdiv (wrapInt64 (info.storageMaximum * 30)) 100 =
        Int.tdiv (info.storageMaximum * 30) 100) := by
  constructor
  · unfold CreateDefaultDisk
    rw [hsub, hinfo]
  · intro h1 h2
    have hw : wrapInt64 (info.storageMaximum * 30) =
        info.storageMaximum * 30 := by
      unfold wrapInt64
      unfold maxInt64 at h2
      omega
    rw [hw]

/-- C8 witness: a concrete run with `StorageMaximum = 1000` reserves 300. -/
theorem C8_create_default_disk_witness :
    CreateDefaultDisk (fun _ => none)
        (fun _ => .ok ⟨str "f1", str "/var/lib/longhorn", 1000, 600⟩)
        (str "/var/lib/longhorn") =
      .ok [(DefaultDiskPrefix ++ str "f1",
        { path := str "/var/lib/longhorn", allowScheduling := true,
          evictionRequested := false, storageReserved := 300, tags := [] })] := by
  rw [(C8_create_default_disk (fun _ => none)
    (fun _ => .ok ⟨str "f1", str "/var/lib/longhorn", 1000, 600⟩)
    (str "/var/lib/longhorn") ⟨str "f1", str "/var/lib/longhorn", 1000, 600⟩
    rfl rfl).1]
  simp only [Except.ok.injEq]
  decide

/-- C5: the three checksum-based identity derivers are pure functions of
their seed of the shape `kind prefix ++ first 8 characters of the checksum
of the trimmed seed`, and the recognizer accepts exactly the strings of the
shape `"ei-"` followed by 8 hexadecimal digits — a shape check only, with
no tie to any seed. -/
theorem C5_checksum_identity_shape :
    (∀ checksum : GoString → GoString, ∀ image : GoString,
      GetEngineImageChecksumName checksum image =
        engineImagePrefix ++ (checksum (trimSpace image)).take ImageChecksumNameLength ∧
      GetInstanceManagerImageChecksumName checksum image =
        instanceManagerImagePrefix ++
          (checksum (trimSpace image)).take ImageChecksumNameLength ∧
      GetShareManagerImageChecksumName checksum image =
        shareManagerImagePrefix ++
          (checksum (trimSpace image)).take ImageChecksumNameLength) ∧
    (∀ checksum : GoString → GoString, ∀ i1 i2 : GoString, i1 = i2 →
      GetEngineImageChecksumName checksum i1 =
        GetEngineImageChecksumName checksum i2) ∧
    (∀ name : GoString, ValidateEngineImageChecksumName name = true ↔
      ∃ t, name = engineImagePrefix ++ t ∧ t.length = ImageChecksumNameLength ∧
        ∀ c ∈ t, isHexDigit c = true) := by
  refine ⟨fun _ _ => ⟨rfl, rfl, rfl⟩, fun _ i1 i2 h => by rw [h], fun name => ?_⟩
  unfold ValidateEngineImageChecksumName
  constructor
  · intro h
    rw [Bool.and_eq_true, Bool.and_eq_true] at h
    obtain ⟨⟨h1, h2⟩, h3⟩ := h
    obtain ⟨t, ht⟩ := List.isPrefixOf_iff_prefix.mp h1
    subst ht
    rw [List.drop_left] at h2 h3
    exact ⟨t, rfl, decide_eq_true_eq.mp h2, List.all_eq_true.mp h3⟩
  · rintro ⟨t, rfl, hlen, hhex⟩
    rw [Bool.and_eq_true, Bool.and_eq_true]
    refine ⟨⟨List.isPrefixOf_iff_prefix.mpr (List.prefix_append _ _), ?_⟩, ?_⟩
    · rw [List.drop_left]
      exact decide_eq_true_eq.mpr hlen
    · rw [List.drop_left]
      exact List.all_eq_true.mpr hhex

/-- C5 witness: determinism applied at a concrete seed and checksum. -/
theorem C5_checksum_identity_shape_witness :
    GetEngineImageChecksumName (fun s => s ++ s) (str "longhornio/engine:v1") =
      GetEngineImageChecksumName (fun s => s ++ s) (str "longhornio/engine:v1") :=
  C5_checksum_identity_shape.2.1 (fun s => s ++ s)
    (str "longhornio/engine:v1") (str "longhornio/engine:v1") rfl

/-- C6 counterexample: not every kind-specific label key is guarded by
non-emptiness.  `GetInstanceManagerLabels` writes the instance-manager-type
key unconditionally, and `GetCronJobLabels` writes the volume and job-task
keys unconditionally: with empty attributes the keys are present with an
empty value, where the claim demands their absence. -/
theorem C6_counterexample :
    goMapLookup (GetInstanceManagerLabels (fun s => s) [] [] [])
        (GetLonghornLabelKey LonghornLabelInstanceManagerType) = some [] ∧
    goMapLookup (GetCronJobLabels [] ⟨[]⟩) LonghornLabelVolume = some [] ∧
    goMapLookup (GetCronJobLabels [] ⟨[]⟩)
        (GetLonghornLabelKey LonghornLabelCronJobTask) = some [] := by
  decide

/-- C6 amended: in the cited label-derivation functions the node,
instance-manager-image, backing-image-data-source-name, disk-UUID and
node-ID keys are present exactly when their attribute is non-empty (absent,
not empty-valued, otherwise), while the instance-manager-type, volume-name
and job-task keys are always present, carrying the attribute verbatim. -/
theorem C6_label_key_presence (checksum : GoString → GoString)
    (node image managerType volumeName name nodeID diskUUID : GoString)
    (job : RecurringJob) :
    (goMapLookup (GetInstanceManagerLabels checksum node image managerType)
        (GetLonghornLabelKey LonghornLabelNode) =
      if node = [] then none else some node) ∧
    (goMapLookup (GetInstanceManagerLabels checksum node image managerType)
        (GetLonghornLabelKey LonghornLabelInstanceManagerImage) =
      if image = [] then none
      else some (GetInstanceManagerImageChecksumName checksum
        (GetImageCanonicalName image))) ∧
    (goMapLookup (GetInstanceManagerLabels checksum node image managerType)
        (GetLonghornLabelKey LonghornLabelInstanceManagerType) =
      some managerType) ∧
    (goMapLookup (GetCronJobLabels volumeName job) LonghornLabelVolume =
      some volumeName) ∧
    (goMapLookup (GetCronJobLabels volumeName job)
        (GetLonghornLabelKey LonghornLabelCronJobTask) = some job.task) ∧
    (goMapLookup (GetCronJobPodLabels volumeName job) LonghornLabelVolume =
      some volumeName) ∧
    (goMapLookup (GetCronJobPodLabels volumeName job)
        (GetLonghornLabelKey LonghornLabelCronJobTask) = some job.task) ∧
    (goMapLookup (GetBackingImageDataSourceLabels name nodeID diskUUID)
        (GetLonghornLabelKey LonghornLabelBackingImageDataSource) =
      if name = [] then none else some name) ∧
    (goMapLookup (GetBackingImageDataSourceLabels name nodeID diskUUID)
        (GetLonghornLabelKey LonghornLabelDiskUUID) =
      if diskUUID = [] then none else some diskUUID) ∧
    (goMapLookup (GetBackingImageDataSourceLabels name nodeID diskUUID)
        (GetLonghornLabelKey LonghornLabelNode) =
      if nodeID = [] then none else some nodeID) := by
  refine ⟨?_, ?_, ?_, ?_, ?_, ?_, ?_, ?_, ?_, ?_⟩
  · unfold GetInstanceManagerLabels
    by_cases hn : node = []
    · rw [if_pos hn]
      simp only [hn, ne_eq, not_true_eq_false, if_false]
      by_cases hi : image = []
      · simp only [hi, ne_eq, not_true_eq_false, if_false]
        rw [goMapLookup_insert_ne _ _ _ _ (by decide),
          goMapLookup_insert_ne _ _ _ _ (by decide)]
        decide
      · simp only [ne_eq, hi, not_false_eq_true, if_true]
        rw [goMapLookup_insert_ne _ _ _ _ (by decide),
          goMapLookup_insert_ne _ _ _ _ (by decide),
          goMapLookup_insert_ne _ _ _ _ (by decide)]
        decide
    · rw [if_neg hn]
      simp only [ne_eq, hn, not_false_eq_true, if_true]
      by_cases hi : image = []
      · simp only [hi, not_true_eq_false, if_false]
        exact goMapLookup_insert_self _ _ _
      · simp only [hi, not_false_eq_true, if_true]
        rw [goMapLookup_insert_ne _ _ _ _ (by decide)]
        exact goMapLookup_insert_self _ _ _
  · unfold GetInstanceManagerLabels
    by_cases hi : image = []
    · rw [if_pos hi]
      simp only [hi, ne_eq, not_true_eq_false, if_false]
      by_cases hn : node = []
      · simp only [hn, not_true_eq_false, if_false]
        rw [goMapLookup_insert_ne _ _ _ _ (by decide),
          goMapLookup_insert_ne _ _ _ _ (by decide)]
        decide
      · simp only [ne_eq, hn, not_false_eq_true, if_true]
        rw [goMapLookup_insert_ne _ _ _ _ (by decide),
          goMapLookup_insert_ne _ _ _ _ (by decide),
          goMapLookup_insert_ne _ _ _ _ (by decide)]
        decide
    · rw [if_neg hi]
      simp only [ne_eq, hi, not_false_eq_true, if_true]
      exact goMapLookup_insert_self _ _ _
  · unfold GetInstanceManagerLabels
    by_cases hn : node = [] <;> by_cases hi : image = [] <;>
      simp only [ne_eq, hn, hi, not_true_eq_false, not_false_eq_true,
        if_false, if_true]
    · exact goMapLookup_insert_self _ _ _
    · rw [goMapLookup_insert_ne _ _ _ _ (by decide)]
      exact goMapLookup_insert_self _ _ _
    · rw [goMapLookup_insert_ne _ _ _ _ (by decide)]
      exact goMapLookup_insert_self _ _ _
    · rw [goMapLookup_insert_ne _ _ _ _ (by decide),
        goMapLookup_insert_ne _ _ _ _ (by decide)]
      exact goMapLookup_insert_self _ _ _
  · unfold GetCronJobLabels
    rw [goMapLookup_insert_ne _ _ _ _ (by decide)]
    exact goMapLookup_insert_self _ _ _
  · unfold GetCronJobLabels
    exact goMapLookup_insert_self _ _ _
  · unfold GetCronJobPodLabels
    rw [goMapLookup_insert_ne _ _ _ _ (by decide)]
    exact goMapLookup_insert_self _ _ _
  · unfold GetCronJobPodLabels
    exact goMapLookup_insert_self _ _ _
  · unfold GetBackingImageDataSourceLabels
    by_cases hm : name = []
    · rw [if_pos hm]
      simp only [hm, ne_eq, not_true_eq_false, if_false]
      by_cases hd : diskUUID = [] <;> by_cases hn : nodeID = [] <;>
        simp only [ne_eq, hd, hn, not_true_eq_false, not_false_eq_true,
          if_false, if_true] <;>
        [skip; rw [goMapLookup_insert_ne _ _ _ _ (by decide)];
          rw [goMapLookup_insert_ne _ _ _ _ (by decide)];
          rw [goMapLookup_insert_ne _ _ _ _ (by decide),
            goMapLookup_insert_ne _ _ _ _ (by decide)]] <;>
        · rw [goMapLookup_insert_ne _ _ _ _ (by decide)]
          decide
    · rw [if_neg hm]
      simp only [ne_eq, hm, not_false_eq_true, if_true]
      by_cases hd : diskUUID = [] <;> by_cases hn : nodeID = [] <;>
        simp only [ne_eq, hd, hn, not_true_eq_false, not_false_eq_true,
          if_false, if_true] <;>
        [skip; rw [goMapLookup_insert_ne _ _ _ _ (by decide)];
          rw [goMapLookup_insert_ne _ _ _ _ (by decide)];
          rw [goMapLookup_insert_ne _ _ _ _ (by decide),
            goMapLookup_insert_ne _ _ _ _ (by decide)]] <;>
        exact goMapLookup_insert_self _ _ _
  · unfold GetBackingImageDataSourceLabels
    by_cases hd : diskUUID = []
    · rw [if_pos hd]
      simp only [hd, ne_eq, not_true_eq_false, if_false]
      by_cases hm : name = [] <;> by_cases hn : nodeID = [] <;>
        simp only [ne_eq, hm, hn, not_true_eq_false, not_false_eq_true,
          if_false, if_true] <;>
        [skip; rw [goMapLookup_insert_ne _ _ _ _ (by decide)];
          rw [goMapLookup_insert_ne _ _ _ _ (by decide)];
          rw [goMapLookup_insert_ne _ _ _ _ (by decide),
            goMapLookup_insert_ne _ _ _ _ (by decide)]] <;>
        · rw [goMapLookup_insert_ne _ _ _ _ (by decide)]
          decide
    · rw [if_neg hd]
      simp only [ne_eq, hd, not_false_eq_true, if_true]
      by_cases hm : name = [] <;> by_cases hn : nodeID = [] <;>
        simp only [ne_eq, hm, hn, not_true_eq_false, not_false_eq_true,
          if_false, if_true] <;>
        [skip; rw [goMapLookup_insert_ne _ _ _ _ (by decide)];
          skip;
          rw [goMapLookup_insert_ne _ _ _ _ (by decide)]] <;>
        exact goMapLookup_insert_self _ _ _
  · unfold GetBackingImageDataSourceLabels
    by_cases hn : nodeID = []
    · rw [if_pos hn]
      simp only [hn, ne_eq, not_true_eq_false, if_false]
      by_cases hm : name = [] <;> by_cases hd : diskUUID = [] <;>
        simp only [ne_eq, hm, hd, not_true_eq_false, not_false_eq_true,
          if_false, if_true] <;>
        [skip; rw [goMapLookup_insert_ne _ _ _ _ (by decide)];
          rw [goMapLookup_insert_ne _ _ _ _ (by decide)];
          rw [goMapLookup_insert_ne _ _ _ _ (by decide),
            goMapLookup_insert_ne _ _ _ _ (by decide)]] <;>
        · rw [goMapLookup_insert_ne _ _ _ _ (by decide)]
          decide
    · rw [if_neg hn]
      simp only [ne_eq, hn, not_false_eq_true, if_true]
      exact goMapLookup_insert_self _ _ _

/-- The validation loop succeeds on a clean suffix: with accumulators
holding the already-validated prefix, a list of clean, pairwise
path/fsid/name-distinct entries is mapped to its name-keyed specs. -/
theorem processDisks_ok_of_clean (g : GoString → Except GoString DiskInfo)
    (vt : List GoString → Except GoString (List GoString))
    (disks : List DiskSpecWithName) :
    ∀ pre : List DiskSpecWithName,
    (∀ e ∈ pre ++ disks, cleanEntry g vt e) →
    ((pre ++ disks).map (fun e => e.path)).Nodup →
    ((pre ++ disks).map (fun e => fsidOfPath g e.path)).Nodup →
    ((pre ++ disks).map (diskOutName g)).Nodup →
    processDisks g vt disks
      (pre.map fun e => (diskOutName g e, diskOutSpec vt e))
      (pre.map fun e => (fsidOfPath g e.path, e.path)) =
      .ok ((pre ++ disks).map fun e => (diskOutName g e, diskOutSpec vt e)) := by
  induction disks with
  | nil =>
    intro pre _ _ _ _
    simp [processDisks]
  | cons d rest ih =>
    intro pre hc hp hf hn
    obtain ⟨hpath, hgok, htok, hr0, hrmax⟩ := hc d (by simp)
    obtain ⟨info, hinfo⟩ : ∃ i, g d.path = .ok i := by
      cases hg : g d.path with
      | ok i => exact ⟨i, rfl⟩
      | error e => rw [hg] at hgok; simp [isOkB] at hgok
    obtain ⟨ts, hts⟩ : ∃ ts, vt d.tags = .ok ts := by
      cases hv : vt d.tags with
      | ok ts => exact ⟨ts, rfl⟩
      | error e => rw [hv] at htok; simp [isOkB] at htok
    have hfs : fsidOfPath g d.path = info.fsid := by
      unfold fsidOfPath; rw [hinfo]
    have hmax : storageMaxOfPath g d.path = info.storageMaximum := by
      unfold storageMaxOfPath; rw [hinfo]
    have hspec : diskOutSpec vt d = { d.toDiskSpec with tags := ts } := by
      unfold diskOutSpec; rw [hts]
    -- the paths, fsids and names of `pre` avoid those of `d`
    have hps : ∀ e ∈ pre, e.path ≠ d.path := by
      intro e he heq
      rw [List.map_append] at hp
      rcases (List.nodup_append.mp hp) with ⟨-, -, hdisj⟩
      exact hdisj (List.mem_map_of_mem _ he) (by simp [heq])
    have hfsids : ∀ e ∈ pre, fsidOfPath g e.path ≠ info.fsid := by
      intro e he heq
      rw [List.map_append] at hf
      rcases (List.nodup_append.mp hf) with ⟨-, -, hdisj⟩
      exact hdisj (List.mem_map_of_mem _ he) (by simp [← hfs, heq])
    have hnames : ∀ e ∈ pre, diskOutName g e ≠ diskOutName g d := by
      intro e he heq
      rw [List.map_append] at hn
      rcases (List.nodup_append.mp hn) with ⟨-, -, hdisj⟩
      exact hdisj (List.mem_map_of_mem _ he) (by simp [heq])
    have hnotany : (pre.map fun e => (diskOutName g e, diskOutSpec vt e)).any
        (fun p => decide (p.2.path = d.path)) = false := by
      rw [Bool.eq_false_iff]
      intro hany
      rw [List.any_eq_true] at hany
      obtain ⟨p, hpmem, hpdec⟩ := hany
      rw [List.mem_map] at hpmem
      obtain ⟨e, he, rfl⟩ := hpmem
      rw [decide_eq_true_eq] at hpdec
      exact hps e he (by simpa [diskOutSpec] using hpdec)
    have hfsidnone : goMapLookup
        (pre.map fun e => (fsidOfPath g e.path, e.path)) info.fsid = none := by
      apply goMapLookup_eq_none
      intro p hpmem
      rw [List.mem_map] at hpmem
      obtain ⟨e, he, rfl⟩ := hpmem
      exact hfsids e he
    have hnamenone : goMapLookup
        (pre.map fun e => (diskOutName g e, diskOutSpec vt e))
        (diskOutName g d) = none := by
      apply goMapLookup_eq_none
      intro p hpmem
      rw [List.mem_map] at hpmem
      obtain ⟨e, he, rfl⟩ := hpmem
      exact hnames e he
    have hres : ¬(d.storageReserved < 0 ∨
        d.storageReserved > info.storageMaximum) := by
      rw [hmax] at hrmax
      omega
    have hname_out : (if d.name = [] then
        { d with name := DefaultDiskPrefix ++ info.fsid } else d) =
        { d with name := diskOutName g d } := by
      unfold diskOutName
      by_cases h : d.name = []
      · rw [if_pos h, if_pos h, hfs]
      · rw [if_neg h, if_neg h]
    simp only [processDisks]
    rw [if_neg hpath, hinfo]
    simp only [hnotany, Bool.false_eq_true, if_false, hname_out, hfsidnone,
      hts, hnamenone, Option.isSome_none]
    rw [if_neg hres]
    have hc' : ∀ e ∈ (pre ++ [d]) ++ rest, cleanEntry g vt e := by
      intro e he
      apply hc
      rw [List.append_assoc, List.singleton_append] at he
      exact he
    have hp' : (((pre ++ [d]) ++ rest).map (fun e => e.path)).Nodup := by
      rw [List.append_assoc, List.singleton_append]
      exact hp
    have hf' : (((pre ++ [d]) ++ rest).map (fun e => fsidOfPath g e.path)).Nodup := by
      rw [List.append_assoc, List.singleton_append]
      exact hf
    have hn' : (((pre ++ [d]) ++ rest).map (diskOutName g)).Nodup := by
      rw [List.append_assoc, List.singleton_append]
      exact hn
    have hmain := ih (pre ++ [d]) hc' hp' hf' hn'
    simp only [List.map_append, List.map_cons, List.map_nil, List.append_assoc,
      List.singleton_append, hspec, hfs] at hmain
    rw [goMapInsert_of_not_mem _ _ _ (forall_of_goMapLookup_eq_none _ _ hnamenone),
      goMapInsert_of_not_mem _ _ _ (forall_of_goMapLookup_eq_none _ _ hfsidnone)]
    simp only [List.map_append, List.map_cons, List.singleton_append, hspec]
    exact hmain

/-- The converse: a successful run certifies that every processed entry was
clean and that paths, fsids and output names are pairwise distinct, also
against the entries already in the accumulators. -/
theorem processDisks_ok_clean (g : GoString → Except GoString DiskInfo)
    (vt : List GoString → Except GoString (List GoString))
    (disks : List DiskSpecWithName) :
    ∀ (vd : List (GoString × DiskSpec)) (ef : List (GoString × GoString))
      (m : List (GoString × DiskSpec)),
    processDisks g vt disks vd ef = .ok m →
    (∀ d ∈ disks, cleanEntry g vt d) ∧
    ((disks.map fun d => d.path).Nodup) ∧
    ((disks.map fun d => fsidOfPath g d.path).Nodup) ∧
    ((disks.map (diskOutName g)).Nodup) ∧
    (∀ d ∈ disks, ∀ p ∈ vd, p.2.path ≠ d.path) ∧
    (∀ d ∈ disks, ∀ p ∈ ef, p.1 ≠ fsidOfPath g d.path) ∧
    (∀ d ∈ disks, ∀ p ∈ vd, p.1 ≠ diskOutName g d) := by
  induction disks with
  | nil =>
    intro vd ef m _
    exact ⟨fun d hd => absurd hd (List.not_mem_nil d), List.nodup_nil,
      List.nodup_nil, List.nodup_nil,
      fun d hd => absurd hd (List.not_mem_nil d),
      fun d hd => absurd hd (List.not_mem_nil d),
      fun d hd => absurd hd (List.not_mem_nil d)⟩
  | cons d rest ih =>
    intro vd ef m h
    simp only [processDisks] at h
    by_cases hpath : d.path = []
    · rw [if_pos hpath] at h
      cases h
    rw [if_neg hpath] at h
    cases hg : g d.path with
    | error e =>
      rw [hg] at h
      simp at h
    | ok info =>
    rw [hg] at h
    have hfs : fsidOfPath g d.path = info.fsid := by
      unfold fsidOfPath; rw [hg]
    have hmax : storageMaxOfPath g d.path = info.storageMaximum := by
      unfold storageMaxOfPath; rw [hg]
    have hname_out : (if d.name = [] then
        { d with name := DefaultDiskPrefix ++ info.fsid } else d) =
        { d with name := diskOutName g d } := by
      unfold diskOutName
      by_cases hx : d.name = []
      · rw [if_pos hx, if_pos hx, hfs]
      · rw [if_neg hx, if_neg hx]
    by_cases hany : vd.any (fun p => decide (p.2.path = d.path)) = true
    · simp only [hany, if_true] at h
      simp at h
    have hany' : ∀ p ∈ vd, p.2.path ≠ d.path := by
      intro p hpmem heq
      exact hany (List.any_eq_true.mpr ⟨p, hpmem, decide_eq_true_eq.mpr heq⟩)
    simp only [Bool.not_eq_true] at hany
    simp only [hany, Bool.false_eq_true, if_false, hname_out] at h
    cases hlf : goMapLookup ef info.fsid with
    | some other =>
      rw [hlf] at h
      simp at h
    | none =>
    rw [hlf] at h
    have hef' : ∀ p ∈ ef, p.1 ≠ info.fsid :=
      forall_of_goMapLookup_eq_none ef info.fsid hlf
    simp only [] at h
    by_cases hres : d.storageReserved < 0 ∨
        d.storageReserved > info.storageMaximum
    · rw [if_pos hres] at h
      simp at h
    rw [if_neg hres] at h
    cases hv : vt d.tags with
    | error e =>
      rw [hv] at h
      simp at h
    | ok ts =>
    rw [hv] at h
    simp only [] at h
    cases hnl : goMapLookup vd (diskOutName g d) with
    | some v0 =>
      rw [hnl] at h
      simp at h
    | none =>
    rw [hnl] at h
    simp only [Option.isSome_none, Bool.false_eq_true, if_false] at h
    have hvd' : ∀ p ∈ vd, p.1 ≠ diskOutName g d :=
      forall_of_goMapLookup_eq_none vd (diskOutName g d) hnl
    rw [goMapInsert_of_not_mem vd _ _ hvd',
      goMapInsert_of_not_mem ef _ _ hef'] at h
    obtain ⟨ihc, ihp, ihf, ihn, ihvd, ihef, ihnames⟩ := ih _ _ _ h
    refine ⟨?_, ?_, ?_, ?_, ?_, ?_, ?_⟩
    · intro e he
      rcases List.mem_cons.mp he with rfl | he2
      · refine ⟨hpath, by rw [hg]; rfl, by rw [hv]; rfl, by omega, ?_⟩
        rw [hmax]
        omega
      · exact ihc e he2
    · simp only [List.map_cons]
      rw [List.nodup_cons]
      refine ⟨?_, ihp⟩
      intro hmem
      rw [List.mem_map] at hmem
      obtain ⟨e, he, heq⟩ := hmem
      exact ihvd e he _
        (List.mem_append_right _ (List.mem_singleton_self _)) heq.symm
    · simp only [List.map_cons]
      rw [List.nodup_cons]
      refine ⟨?_, ihf⟩
      intro hmem
      rw [List.mem_map] at hmem
      obtain ⟨e, he, heq⟩ := hmem
      refine ihef e he _
        (List.mem_append_right _ (List.mem_singleton_self _)) ?_
      rw [heq, hfs]
    · simp only [List.map_cons]
      rw [List.nodup_cons]
      refine ⟨?_, ihn⟩
      intro hmem
      rw [List.mem_map] at hmem
      obtain ⟨e, he, heq⟩ := hmem
      exact ihnames e he _
        (List.mem_append_right _ (List.mem_singleton_self _)) heq.symm
    · intro e he p hp
      rcases List.mem_cons.mp he with rfl | he2
      · exact hany' p hp
      · exact ihvd e he2 p (List.mem_append_left _ hp)
    · intro e he p hp
      rcases List.mem_cons.mp he with rfl | he2
      · rw [hfs]
        exact hef' p hp
      · exact ihef e he2 p (List.mem_append_left _ hp)
    · intro e he p hp
      rcases List.mem_cons.mp he with rfl | he2
      · exact hvd' p hp
      · exact ihnames e he2 p (List.mem_append_left _ hp)

/-- C1: for a decoded annotation whose entries all pass the per-entry checks
and have pairwise distinct paths, fsids and output names, the call returns
`ok` with the mapping of all `k` entries keyed by their output names (the
given name, or `DefaultDiskPrefix ++ Fsid` when empty), with distinct paths,
distinct fsids and in-bounds reservations. -/
theorem C1_create_disks_success
    (unm : GoString → Except GoString (List DiskSpecWithName))
    (g : GoString → Except GoString DiskInfo)
    (vt : List GoString → Except GoString (List GoString))
    (ann : GoString) (disks : List DiskSpecWithName)
    (hu : unm ann = .ok disks)
    (hc : ∀ d ∈ disks, cleanEntry g vt d)
    (hp : (disks.map fun d => d.path).Nodup)
    (hf : (disks.map fun d => fsidOfPath g d.path).Nodup)
    (hn : (disks.map (diskOutName g)).Nodup) :
    ∃ m, CreateDisksFromAnnotationGo unm g vt ann = .ok m ∧
      m = disks.map (fun d => (diskOutName g d, diskOutSpec vt d)) ∧
      m.length = disks.length ∧
      m.map Prod.fst = disks.map (diskOutName g) ∧
      (m.map Prod.fst).Nodup ∧
      ((m.map fun p => p.2.path).Nodup) ∧
      ((m.map fun p => fsidOfPath g p.2.path).Nodup) ∧
      ∀ p ∈ m, 0 ≤ p.2.storageReserved ∧
        p.2.storageReserved ≤ storageMaxOfPath g p.2.path := by
  have hrun := processDisks_ok_of_clean g vt disks [] (by simpa using hc)
    (by simpa using hp) (by simpa using hf) (by simpa using hn)
  simp only [List.map_nil, List.nil_append] at hrun
  refine ⟨disks.map (fun d => (diskOutName g d, diskOutSpec vt d)), ?_, rfl,
    ?_, ?_, ?_, ?_, ?_, ?_⟩
  · unfold CreateDisksFromAnnotationGo
    rw [hu]
    exact hrun
  · rw [List.length_map]
  · rw [List.map_map]
    rfl
  · rw [List.map_map]
    exact hn
  · rw [List.map_map]
    exact hp
  · rw [List.map_map]
    exact hf
  · intro p hp2
    rw [List.mem_map] at hp2
    obtain ⟨e, he, rfl⟩ := hp2
    obtain ⟨-, -, -, h1, h2⟩ := hc e he
    exact ⟨h1, h2⟩

/-- C1 witness: a concrete two-disk annotation yields a two-entry mapping. -/
theorem C1_create_disks_success_witness :
    ∃ m, CreateDisksFromAnnotationGo
      (fun _ => .ok [⟨⟨str "/mnt/a", true, false, 100, []⟩, []⟩,
                     ⟨⟨str "/mnt/b", true, false, 0, [str "ssd"]⟩, str "disk2"⟩])
      (fun p => if p = str "/mnt/a" then .ok ⟨str "f1", str "/mnt/a", 1000, 800⟩
                else .ok ⟨str "f2", str "/mnt/b", 500, 400⟩)
      (fun ts => .ok ts) (str "ann") = .ok m ∧ m.length = 2 := by
  obtain ⟨m, hres, -, hlen, -⟩ := C1_create_disks_success
    (fun _ => .ok [⟨⟨str "/mnt/a", true, false, 100, []⟩, []⟩,
                   ⟨⟨str "/mnt/b", true, false, 0, [str "ssd"]⟩, str "disk2"⟩])
    (fun p => if p = str "/mnt/a" then .ok ⟨str "f1", str "/mnt/a", 1000, 800⟩
              else .ok ⟨str "f2", str "/mnt/b", 500, 400⟩)
    (fun ts => .ok ts) (str "ann") _ rfl (by decide) (by decide) (by decide)
    (by decide)
  exact ⟨m, hres, by rw [hlen]; rfl⟩

/-- C2: the call returns an error (and hence no mapping at all) whenever
decoding fails, an entry has an empty path, two entries share a path, two
entries with different paths resolve to the same fsid, a reservation is out
of bounds, or two entries share an output name. -/
theorem C2_create_disks_failfast
    (unm : GoString → Except GoString (List DiskSpecWithName))
    (g : GoString → Except GoString DiskInfo)
    (vt : List GoString → Except GoString (List GoString))
    (ann : GoString) :
    (∀ e0, unm ann = .error e0 →
      ∃ e, CreateDisksFromAnnotationGo unm g vt ann = .error e) ∧
    (∀ disks, unm ann = .ok disks →
      ((∃ d ∈ disks, d.path = []) ∨
       (∃ d1 d2, [d1, d2].Sublist disks ∧ d1.path = d2.path) ∨
       (∃ d1 d2 i1 i2, [d1, d2].Sublist disks ∧ d1.path ≠ d2.path ∧
         g d1.path = .ok i1 ∧ g d2.path = .ok i2 ∧ i1.fsid = i2.fsid) ∨
       (∃ d ∈ disks, ∃ i, g d.path = .ok i ∧
         (d.storageReserved < 0 ∨ d.storageReserved > i.storageMaximum)) ∨
       (∃ d1 d2, [d1, d2].Sublist disks ∧ diskOutName g d1 = diskOutName g d2)) →
      ∃ e, CreateDisksFromAnnotationGo unm g vt ann = .error e) := by
  constructor
  · intro e0 he0
    exact ⟨.parseFailed e0, by unfold CreateDisksFromAnnotationGo; rw [he0]⟩
  · intro disks hu hviol
    cases hres : CreateDisksFromAnnotationGo unm g vt ann with
    | error e => exact ⟨e, rfl⟩
    | ok m =>
      exfalso
      have hok : processDisks g vt disks [] [] = .ok m := by
        unfold CreateDisksFromAnnotationGo at hres
        rw [hu] at hres
        exact hres
      obtain ⟨hclean, hp, hf, hn, -, -, -⟩ :=
        processDisks_ok_clean g vt disks [] [] m hok
      rcases hviol with ⟨d, hd, hdp⟩ | ⟨d1, d2, hsub, hpp⟩ |
        ⟨d1, d2, i1, i2, hsub, hne, hg1, hg2, hff⟩ | ⟨d, hd, i, hgi, hrr⟩ |
        ⟨d1, d2, hsub, hnn⟩
      · exact (hclean d hd).1 hdp
      · have h2 := List.Nodup.sublist (hsub.map (fun e => e.path)) hp
        have h3 : d1.path ≠ d2.path := by simpa using h2
        exact h3 hpp
      · have h2 := List.Nodup.sublist
          (hsub.map (fun e => fsidOfPath g e.path)) hf
        have h3 : fsidOfPath g d1.path ≠ fsidOfPath g d2.path := by
          simpa using h2
        apply h3
        unfold fsidOfPath
        rw [hg1, hg2]
        exact hff
      · obtain ⟨-, -, -, h1, h2⟩ := hclean d hd
        have hmx : storageMaxOfPath g d.path = i.storageMaximum := by
          unfold storageMaxOfPath
          rw [hgi]
        rw [hmx] at h2
        omega
      · have h2 := List.Nodup.sublist (hsub.map (diskOutName g)) hn
        have h3 : diskOutName g d1 ≠ diskOutName g d2 := by simpa using h2
        exact h3 hnn

/-- C2 witness: a concrete annotation with a duplicated path errors. -/
theorem C2_create_disks_failfast_witness :
    ∃ e, CreateDisksFromAnnotationGo
      (fun _ => .ok [⟨⟨str "/mnt/a", true, false, 0, []⟩, str "n1"⟩,
                     ⟨⟨str "/mnt/a", true, false, 0, []⟩, str "n2"⟩])
      (fun _ => .ok ⟨str "f1", str "/mnt/a", 1000, 800⟩)
      (fun ts => .ok ts) (str "ann") = .error e :=
  (C2_create_disks_failfast
      (fun _ => .ok [⟨⟨str "/mnt/a", true, false, 0, []⟩, str "n1"⟩,
                     ⟨⟨str "/mnt/a", true, false, 0, []⟩, str "n2"⟩])
      (fun _ => .ok ⟨str "f1", str "/mnt/a", 1000, 800⟩)
      (fun ts => .ok ts) (str "ann")).2 _ rfl
    (Or.inr (Or.inl ⟨_, _, List.Sublist.refl _, rfl⟩))

/-- Every duplicate-disk-path failure of the validation loop carries a
`GetDiskInfo` call trace that ends with the repeated path: the filesystem
lookup for the repeated entry precedes the duplicate check. -/
theorem processDisksTraced_dup_path_last
    (g : Nat → GoString → Except GoString DiskInfo)
    (vt : List GoString → Except GoString (List GoString))
    (disks : List DiskSpecWithName) :
    ∀ (vd : List (GoString × DiskSpec)) (ef : List (GoString × GoString))
      (tr : List GoString) (n : Nat) (q : GoString) (r : List GoString),
    processDisksTraced g vt disks vd ef tr n =
      (.error (.duplicateDiskPath q), r) →
    ∃ r0, r = r0 ++ [q] := by
  induction disks with
  | nil =>
    intro vd ef tr n q r h
    simp [processDisksTraced] at h
  | cons d rest ih =>
    intro vd ef tr n q r h
    simp only [processDisksTraced] at h
    by_cases hpath : d.path = []
    · rw [if_pos hpath] at h
      simp at h
    rw [if_neg hpath] at h
    cases hg : g n d.path with
    | error e =>
      rw [hg] at h
      simp at h
    | ok info =>
    rw [hg] at h
    by_cases hany : vd.any (fun p => decide (p.2.path = d.path)) = true
    · simp only [hany, if_true] at h
      simp only [Prod.mk.injEq, Except.error.injEq,
        DiskError.duplicateDiskPath.injEq] at h
      obtain ⟨hq, hr⟩ := h
      exact ⟨tr, by rw [← hr, hq]⟩
    simp only [Bool.not_eq_true] at hany
    simp only [hany, Bool.false_eq_true, if_false] at h
    set d1 : DiskSpecWithName := if d.name = [] then
      { d with name := DefaultDiskPrefix ++ info.fsid } else d with hd1
    cases hlf : goMapLookup ef info.fsid with
    | some other =>
      rw [hlf] at h
      simp at h
    | none =>
    rw [hlf] at h
    simp only [] at h
    by_cases hres : d1.storageReserved < 0 ∨
        d1.storageReserved > info.storageMaximum
    · rw [if_pos hres] at h
      simp at h
    rw [if_neg hres] at h
    cases hv : vt d1.tags with
    | error e =>
      rw [hv] at h
      simp at h
    | ok ts =>
    rw [hv] at h
    simp only [] at h
    cases hnl : goMapLookup vd ({ d1 with tags := ts } :
        DiskSpecWithName).name with
    | some v0 =>
      rw [hnl] at h
      simp at h
    | none =>
    rw [hnl] at h
    simp only [Option.isSome_none, Bool.false_eq_true, if_false] at h
    exact ih _ _ _ _ _ _ h

/-- C3 counterexample: on an annotation repeating the path `/mnt/a`, the
duplicate-path failure is reached only after `GetDiskInfo` was invoked twice
on `/mnt/a` (the trace lists both invocations), and when the second
invocation fails, its error preempts the duplicate-path error — refuting
that the duplicate-path check precedes the filesystem lookup. -/
theorem C3_counterexample :
    CreateDisksFromAnnotationTraced
        (fun _ => .ok [⟨⟨str "/mnt/a", true, false, 0, []⟩, str "n1"⟩,
                       ⟨⟨str "/mnt/a", true, false, 0, []⟩, str "n2"⟩])
        (fun _ _ => .ok ⟨str "f1", str "/mnt/a", 1000, 800⟩)
        (fun ts => .ok ts) (str "ann") =
      (.error (.duplicateDiskPath (str "/mnt/a")),
        [str "/mnt/a", str "/mnt/a"]) ∧
    CreateDisksFromAnnotationTraced
        (fun _ => .ok [⟨⟨str "/mnt/a", true, false, 0, []⟩, str "n1"⟩,
                       ⟨⟨str "/mnt/a", true, false, 0, []⟩, str "n2"⟩])
        (fun n _ => if n = 0 then .ok ⟨str "f1", str "/mnt/a", 1000, 800⟩
                    else .error (str "io error"))
        (fun ts => .ok ts) (str "ann") =
      (.error (.getDiskInfoFailed (str "io error")),
        [str "/mnt/a", str "/mnt/a"]) := by
  decide

/-- C3 amended: the duplicate-path rejection happens after the filesystem
lookup for the repeated entry — whenever `CreateDisksFromAnnotation` fails
with the duplicate-disk-path error for path `q`, the `GetDiskInfo` call
trace ends with `q`. -/
theorem C3_dup_path_error_after_lookup
    (unm : GoString → Except GoString (List DiskSpecWithName))
    (g : Nat → GoString → Except GoString DiskInfo)
    (vt : List GoString → Except GoString (List GoString))
    (ann : GoString) (q : GoString) (r : List GoString)
    (h : CreateDisksFromAnnotationTraced unm g vt ann =
      (.error (.duplicateDiskPath q), r)) :
    ∃ r0, r = r0 ++ [q] := by
  unfold CreateDisksFromAnnotationTraced at h
  cases hu : unm ann with
  | error e =>
    rw [hu] at h
    simp at h
  | ok disks =>
    rw [hu] at h
    exact processDisksTraced_dup_path_last g vt disks _ _ _ _ _ _ h

/-- C3 witness: the amended theorem applied to the concrete repeated-path
run. -/
theorem C3_dup_path_error_after_lookup_witness :
    ∃ r0, [str "/mnt/a", str "/mnt/a"] = r0 ++ [str "/mnt/a"] :=
  C3_dup_path_error_after_lookup
    (fun _ => .ok [⟨⟨str "/mnt/a", true, false, 0, []⟩, str "n1"⟩,
                   ⟨⟨str "/mnt/a", true, false, 0, []⟩, str "n2"⟩])
    (fun _ _ => .ok ⟨str "f1", str "/mnt/a", 1000, 800⟩)
    (fun ts => .ok ts) (str "ann") (str "/mnt/a")
    [str "/mnt/a", str "/mnt/a"] (by decide)
